import Mathlib

/-!
Verification of the metalglyph atlas allocation and eviction engine.

This file gives a shallow embedding of the core of the repository:
`src/text_atlas.rs` (the `InnerAtlas` / `TextAtlas` structures with
`try_allocate`, `grow` and `trim`) and `src/cache.rs` (the shared
pipeline-state cache), together with theorems about the embedded
operations.

Modelling conventions:
- The LRU cache (`lru::LruCache`) is modelled as an association list
  whose HEAD is the least-recently-used entry and whose last element is
  the most-recently-used one.  `peek_lru` is thus `head?` and `pop_lru`
  drops the head.  (The only consequence of this orientation is that the
  re-upload iteration in `grow` walks entries LRU-first while the Rust
  iterator walks them MRU-first; `grow` treats every entry independently,
  so only the order of the produced upload commands is permuted.)
- `HashSet<GlyphonCacheKey>` is modelled as a `List GlyphonCacheKey`
  with membership as the set operation.
- The `etagere::BucketedAtlasAllocator` is an external collaborator; it
  is modelled by an abstract state type `P` together with a record of
  operations `PackerOps` and, where a claim assumes it, a contract
  `PackerContract` stating the guarantees the spec assigns to it
  (allocate never returns overlapping regions, deallocate frees exactly
  the given region, grow preserves regions).
- GPU calls are modelled by data: a texture is its side length plus the
  list of region uploads performed on it; creating a texture yields an
  empty upload list.
- Rust panics (`unwrap`, `panic!`, the failed `validate` assertion) are
  modelled by `Option`: a function that can panic returns `none` in
  exactly the panicking executions.
- Machine integers (`u32`, `usize`, `u16`) stay well within their ranges
  here (sizes are at most 16384), so they are modelled as `Nat`.
-/

/-- Content type of a glyph (declared in `text_render.rs`, which is outside
the provided sources; its two variants are fixed by their uses in
`text_atlas.rs`): `Mask` or `Color`. -/
inductive ContentType where
  | mask
  | color
deriving DecidableEq, Repr

/-- Pixel formats used by the code (`MTLPixelFormat` is an external enum;
only the constructors the sources mention are distinguished, all others
are collapsed into `other`). -/
inductive MTLPixelFormat where
  | r8Unorm
  | rgba8Unorm
  | rgba8UnormSrgb
  | bgra8Unorm
  | other (n : Nat)
deriving DecidableEq, Repr

/-- Atlas plane kind, from `text_atlas.rs`: `Kind::Mask` or
`Kind::Color { srgb }`. -/
inductive Kind where
  | mask
  | color (srgb : Bool)
deriving DecidableEq, Repr

/-- Number of channels of a kind, from `Kind::num_channels`. -/
def Kind.num_channels : Kind → Nat
  | .mask => 1
  | .color _ => 4

/-- Texture format of a kind, from `Kind::texture_format`. -/
def Kind.texture_format : Kind → MTLPixelFormat
  | .mask => .r8Unorm
  | .color srgb => if srgb then .rgba8UnormSrgb else .rgba8Unorm

/-- Content type of a kind, from `Kind::as_content_type`. -/
def Kind.as_content_type : Kind → ContentType
  | .mask => .mask
  | .color _ => .color

/-- Color mode of a `TextAtlas`, from `text_atlas.rs`. -/
inductive ColorMode where
  | accurate
  | web
deriving DecidableEq, Repr

/-- Cache key for a glyph rasterized from a font (`cosmic_text::CacheKey`
is external and only passed through; modelled as an opaque natural). -/
structure TextCacheKey where
  raw : Nat
deriving DecidableEq, Repr

/-- Cache key for a custom (externally rasterized) glyph; its fields are
fixed by their uses in `InnerAtlas::grow` (`glyph_id`, `width`, `height`,
`x_bin`, `y_bin`). Sub-pixel bins are modelled as naturals. -/
structure CustomGlyphCacheKey where
  glyph_id : Nat
  width : Nat
  height : Nat
  x_bin : Nat
  y_bin : Nat
deriving DecidableEq, Repr

/-- Glyph identity, from `GlyphonCacheKey` (declared in `text_render.rs`,
outside the provided sources; its two variants are fixed by the match in
`InnerAtlas::grow`). -/
inductive GlyphonCacheKey where
  | text (key : TextCacheKey)
  | custom (key : CustomGlyphCacheKey)
deriving DecidableEq, Repr

/-- GPU cache status of a glyph, from `GpuCacheStatus` (declared in
`text_render.rs`, outside the provided sources; the two variants and the
`x`, `y` fields are fixed by the match in `InnerAtlas::grow`). -/
inductive GpuCacheStatus where
  | inAtlas (x : Nat) (y : Nat)
  | skipRasterization
deriving DecidableEq, Repr

/-- Per-glyph cache value, from `GlyphDetails` (declared in
`text_render.rs`, outside the provided sources). `atlas_id` and
`gpu_cache` are fixed by their uses in `text_atlas.rs`; `width` and
`height` are modelled from the spec: Placement is an optional
{x, y, width, height}, and the identity owns an allocator region "of
matching size". Allocator region ids are naturals. -/
structure GlyphDetails where
  width : Nat
  height : Nat
  gpu_cache : GpuCacheStatus
  atlas_id : Option Nat
deriving DecidableEq, Repr

/-- A rectangle inside an atlas texture (coordinates of the top-left
corner plus extents). -/
structure Rect where
  x : Nat
  y : Nat
  w : Nat
  h : Nat
deriving DecidableEq, Repr

/-- Two rectangles are disjoint when they are separated on at least one
axis. -/
def Rect.disjoint (r s : Rect) : Prop :=
  r.x + r.w ≤ s.x ∨ s.x + s.w ≤ r.x ∨ r.y + r.h ≤ s.y ∨ s.y + s.h ≤ r.y

instance : DecidablePred fun p : Rect × Rect => p.1.disjoint p.2 := by
  intro p
  unfold Rect.disjoint
  infer_instance

/-- A rectangle lies inside the square of the given side length. -/
def Rect.inBounds (r : Rect) (side : Nat) : Prop :=
  r.x + r.w ≤ side ∧ r.y + r.h ≤ side

/-- An allocator allocation, from `etagere::Allocation`: a region id plus
the granted rectangle. -/
structure Allocation where
  id : Nat
  rect : Rect
deriving DecidableEq, Repr

/-- Operations of the spatial allocator collaborator
(`etagere::BucketedAtlasAllocator`), state-passing style over an abstract
state type `P`.  `regions` and `side` are the abstraction used to state
its contract: the finite map of live regions and the current side
length. -/
structure PackerOps (P : Type) where
  allocate : P → Nat → Nat → Option (Allocation × P)
  deallocate : P → Nat → P
  grow : P → Nat → P
  regions : P → Nat → Option Rect
  side : P → Nat

/-- Contract of the spatial allocator, from the spec (§4.1): allocate
never returns overlapping regions and stays in bounds, deallocate frees
exactly the given region, grow extends space without invalidating or
moving existing regions. -/
structure PackerContract {P : Type} (ops : PackerOps P) : Prop where
  allocate_spec : ∀ p w h a p2, ops.allocate p w h = some (a, p2) →
    ops.regions p a.id = none ∧
    a.rect.w = w ∧ a.rect.h = h ∧
    a.rect.inBounds (ops.side p) ∧
    (∀ i r, ops.regions p i = some r → a.rect.disjoint r) ∧
    (∀ i, ops.regions p2 i = if i = a.id then some a.rect else ops.regions p i) ∧
    ops.side p2 = ops.side p
  deallocate_spec : ∀ p j,
    (∀ i, ops.regions (ops.deallocate p j) i =
      if i = j then none else ops.regions p i) ∧
    ops.side (ops.deallocate p j) = ops.side p
  grow_spec : ∀ p s, ops.side p ≤ s →
    (∀ i, ops.regions (ops.grow p s) i = ops.regions p i) ∧
    ops.side (ops.grow p s) = s

/-- A region upload into a texture, from
`MTLTexture::replaceRegion_mipmapLevel_withBytes_bytesPerRow`: origin,
extents, the uploaded bytes and the row stride. -/
structure Upload where
  x : Nat
  y : Nat
  width : Nat
  height : Nat
  data : List Nat
  bytesPerRow : Nat
deriving DecidableEq, Repr

/-- A GPU texture, modelled as its side length together with the list of
uploads performed on it (`newTextureWithDescriptor` yields an empty
list). -/
structure Texture where
  side : Nat
  uploads : List Upload
deriving DecidableEq, Repr

/-- One atlas plane, from `InnerAtlas` in `text_atlas.rs`.  The packer
state is the abstract type `P`; the LRU cache is an association list with
the least-recently-used entry at the head. -/
structure InnerAtlas (P : Type) where
  kind : Kind
  texture : Texture
  packer : P
  size : Nat
  glyph_cache : List (GlyphonCacheKey × GlyphDetails)
  glyphs_in_use : List GlyphonCacheKey

/-- Constant `InnerAtlas::INITIAL_SIZE`. -/
def InnerAtlas.INITIAL_SIZE : Nat := 256

/-- Constant `InnerAtlas::MAX_TEXTURE_DIMENSION_2D`. -/
def InnerAtlas.MAX_TEXTURE_DIMENSION_2D : Nat := 16384

/-- Constant `GROWTH_FACTOR` from `InnerAtlas::grow`. -/
def GROWTH_FACTOR : Nat := 2

/-- Result of scanning the LRU end of the glyph cache for an entry with
an actual size — the `while value.atlas_id.is_none()` loop inside
`InnerAtlas::try_allocate`.  `empty` means `peek_lru` returned `None`
(the cache ran out); `blocked c` means the scan stopped at an in-use
zero-area entry and returned `None` with the cache in state `c`;
`found k v aid rest` means the cache is `(k, v) :: rest` with
`v.atlas_id = some aid`. -/
inductive ScanResult where
  | empty
  | blocked (cache : List (GlyphonCacheKey × GlyphDetails))
  | found (k : GlyphonCacheKey) (v : GlyphDetails) (aid : Nat)
      (rest : List (GlyphonCacheKey × GlyphDetails))

/-- The inner `while value.atlas_id.is_none()` loop of
`InnerAtlas::try_allocate`: pop zero-area entries that are not in use; an
in-use zero-area entry makes the whole allocation return `None`; stop at
the first entry with an actual size. -/
def scanLru (inUse : GlyphonCacheKey → Bool) :
    List (GlyphonCacheKey × GlyphDetails) → ScanResult
  | [] => .empty
  | (k, v) :: rest =>
    match v.atlas_id with
    | some aid => .found k v aid rest
    | none =>
      if inUse k then .blocked ((k, v) :: rest)
      else scanLru inUse rest

/-- The `loop` body of `InnerAtlas::try_allocate`, operating on the
packer state and the glyph cache.  Returns the allocation result together
with the final packer state and glyph cache. -/
def tryAllocateGo {P : Type} (ops : PackerOps P) (inUse : GlyphonCacheKey → Bool)
    (width height : Nat) (p : P) (cache : List (GlyphonCacheKey × GlyphDetails)) :
    Option Allocation × P × List (GlyphonCacheKey × GlyphDetails) :=
  match ops.allocate p width height with
  | some (a, p2) => (some a, p2, cache)
  | none =>
    match hscan : scanLru inUse cache with
    | .empty => (none, p, [])
    | .blocked c => (none, p, c)
    | .found k v aid rest =>
      if inUse k then (none, p, (k, v) :: rest)
      else tryAllocateGo ops inUse width height (ops.deallocate p aid) rest
termination_by cache.length
decreasing_by
  revert hscan
  induction cache with
  | nil => intro hscan; simp [scanLru] at hscan
  | cons e c ih =>
    obtain ⟨ke, ve⟩ := e
    intro hscan
    simp only [scanLru] at hscan
    cases hid : ve.atlas_id with
    | some aid2 =>
      rw [hid] at hscan
      cases hscan
      simp
    | none =>
      rw [hid] at hscan
      by_cases hu : inUse ke
      · simp [hu] at hscan
      · simp only [hu, if_false] at hscan
        exact Nat.lt_trans (ih hscan) (by simp)

/-- Method `InnerAtlas::try_allocate`. -/
def InnerAtlas.try_allocate {P : Type} (ops : PackerOps P) (st : InnerAtlas P)
    (width height : Nat) : Option Allocation × InnerAtlas P :=
  let r := tryAllocateGo ops (fun k => decide (k ∈ st.glyphs_in_use))
    width height st.packer st.glyph_cache
  (r.1, { st with packer := r.2.1, glyph_cache := r.2.2 })

/-- Method `InnerAtlas::trim`: clear the in-use set. -/
def InnerAtlas.trim {P : Type} (st : InnerAtlas P) : InnerAtlas P :=
  { st with glyphs_in_use := [] }

/-- Request passed to the custom glyph rasterizer, from
`RasterizeCustomGlyphRequest` (declared in `text_render.rs`, outside the
provided sources; its fields are fixed by the literal built in
`InnerAtlas::grow`).  `scale` is an `f32` in the code; it is only passed
through opaquely, so a natural stands in for it. -/
structure RasterizeCustomGlyphRequest where
  id : Nat
  width : Nat
  height : Nat
  x_bin : Nat
  y_bin : Nat
  scale : Nat
deriving DecidableEq, Repr

/-- Output of the custom glyph rasterizer, from `RasterizedCustomGlyph`
(declared in `text_render.rs`, outside the provided sources): the pixel
bytes plus the content type the rasterizer produced. -/
structure RasterizedCustomGlyph where
  data : List Nat
  content_type : ContentType
deriving DecidableEq, Repr

/-- Modelled from the spec: `RasterizedCustomGlyph::validate` is declared
in `text_render.rs`, which is outside the provided sources.  Per the spec
(§4.3, §6, §7) it performs the "sanity checks on the rasterizer output":
the returned byte buffer must hold exactly width·height·channels bytes
for the requested dimensions, and the content kind must match the
expected one; a mismatch is the fatal "rasterizer contract violated"
error.  Here it returns `true` when the checks pass. -/
def RasterizedCustomGlyph.validate (g : RasterizedCustomGlyph)
    (input : RasterizeCustomGlyphRequest) (expected : Option ContentType) : Bool :=
  g.data.length = input.width * input.height *
      (match g.content_type with | .mask => 1 | .color => 4) &&
    match expected with
    | some ct => g.content_type = ct
    | none => true

/-- A rasterized font glyph, from `swash::scale::image::Image` as used in
`InnerAtlas::grow`: its placement extents and pixel bytes. -/
structure SwashImage where
  width : Nat
  height : Nat
  data : List Nat
deriving DecidableEq, Repr

/-- The font rasterizer collaborator:
`SwashCache::get_image_uncached(font_system, key)`, which yields `None`
when the font engine cannot produce the glyph (that `None` is `unwrap`ped
in `InnerAtlas::grow`). -/
def FontRaster : Type := TextCacheKey → Option SwashImage

/-- The custom glyph rasterizer collaborator: the `rasterize_custom_glyph`
closure passed into `InnerAtlas::grow`. -/
def CustomRaster : Type := RasterizeCustomGlyphRequest → Option RasterizedCustomGlyph

/-- Append a region upload to a texture, from the
`replaceRegion_mipmapLevel_withBytes_bytesPerRow` call in
`InnerAtlas::grow` (row stride there is `width * self.kind.num_channels()`). -/
def Texture.pushUpload (tex : Texture) (x y width height : Nat)
    (data : List Nat) (bytesPerRow : Nat) : Texture :=
  { tex with uploads := tex.uploads ++
      [{ x := x, y := y, width := width, height := height,
         data := data, bytesPerRow := bytesPerRow }] }

/-- One iteration of the re-upload loop in `InnerAtlas::grow`: skip
`SkipRasterization` entries; re-rasterize the glyph (font path or custom
path) and upload it at its stored coordinates; `none` models the panics
(`unwrap` of a missing font image, a custom rasterizer returning `None`,
or a failed `validate`). -/
def reuploadGlyph (kind : Kind) (fontRaster : FontRaster)
    (customRaster : CustomRaster) (scale_factor : Nat) (tex : Texture)
    (entry : GlyphonCacheKey × GlyphDetails) : Option Texture :=
  match entry.2.gpu_cache with
  | .skipRasterization => some tex
  | .inAtlas x y =>
    match entry.1 with
    | .text cache_key =>
      match fontRaster cache_key with
      | none => none
      | some image =>
        some (tex.pushUpload x y image.width image.height image.data
          (image.width * kind.num_channels))
    | .custom cache_key =>
      let input : RasterizeCustomGlyphRequest :=
        { id := cache_key.glyph_id, width := cache_key.width,
          height := cache_key.height, x_bin := cache_key.x_bin,
          y_bin := cache_key.y_bin, scale := scale_factor }
      match customRaster input with
      | none => none
      | some rasterized_glyph =>
        if rasterized_glyph.validate input (some kind.as_content_type) then
          some (tex.pushUpload x y cache_key.width cache_key.height
            rasterized_glyph.data (cache_key.width * kind.num_channels))
        else none

/-- Method `InnerAtlas::grow`.  Returns `none` when one of the panics in
the re-upload loop fires, otherwise `some (returned bool, new state)`. -/
def InnerAtlas.grow {P : Type} (ops : PackerOps P) (fontRaster : FontRaster)
    (customRaster : CustomRaster) (scale_factor : Nat) (st : InnerAtlas P) :
    Option (Bool × InnerAtlas P) :=
  if st.size ≥ InnerAtlas.MAX_TEXTURE_DIMENSION_2D then some (false, st)
  else
    let new_size := min (st.size * GROWTH_FACTOR) InnerAtlas.MAX_TEXTURE_DIMENSION_2D
    let packer2 := ops.grow st.packer new_size
    let texture0 : Texture := { side := new_size, uploads := [] }
    match st.glyph_cache.foldlM
        (reuploadGlyph st.kind fontRaster customRaster scale_factor) texture0 with
    | none => none
    | some texture2 =>
      some (true, { st with texture := texture2, packer := packer2, size := new_size })

/-- Method `InnerAtlas::num_channels`. -/
def InnerAtlas.num_channels {P : Type} (st : InnerAtlas P) : Nat :=
  st.kind.num_channels

/-- Method `InnerAtlas::new`: fresh texture and empty cache state at the
initial size.  The packer construction
(`BucketedAtlasAllocator::new(size2(size, size))`) is abstract, so the
initial packer state is a parameter. -/
def InnerAtlas.new {P : Type} (kind : Kind) (packer0 : P) : InnerAtlas P :=
  { kind := kind,
    texture := { side := InnerAtlas.INITIAL_SIZE, uploads := [] },
    packer := packer0,
    size := InnerAtlas.INITIAL_SIZE,
    glyph_cache := [],
    glyphs_in_use := [] }

/-- State of the shared pipeline cache, from `Inner` in `cache.rs`: the
vector of (pixel format, pipeline) pairs guarded by the mutex.  Pipeline
state objects are opaque handles, modelled as naturals. -/
abbrev CacheState : Type := List (MTLPixelFormat × Nat)

/-- Method `Cache::get_or_create_pipeline` from `cache.rs`: look up the
first cached pipeline whose pixel format equals `format`; otherwise set
the attachment pixel format, create a pipeline with the compiler and push
`(format, pipeline)`.  The compiler is modelled as a function from the
pixel format (the only descriptor field that varies between calls) to the
created handle. -/
def Cache.get_or_create_pipeline (compiler : MTLPixelFormat → Nat)
    (c : CacheState) (format : MTLPixelFormat) : Nat × CacheState :=
  match c.find? (fun e => decide (e.1 = format)) with
  | some e => (e.2, c)
  | none =>
    let pipeline := compiler format
    (pipeline, c ++ [(format, pipeline)])

/-- The two-plane atlas, from `TextAtlas` in `text_atlas.rs`. -/
structure TextAtlas (P : Type) where
  cache : CacheState
  color_atlas : InnerAtlas P
  mask_atlas : InnerAtlas P
  format : MTLPixelFormat
  color_mode : ColorMode

/-- Method `TextAtlas::with_color_mode`: a color plane whose srgb flag
follows the color mode, plus a mask plane. -/
def TextAtlas.with_color_mode {P : Type} (cache : CacheState)
    (format : MTLPixelFormat) (color_mode : ColorMode)
    (colorPacker0 maskPacker0 : P) : TextAtlas P :=
  { cache := cache,
    color_atlas := InnerAtlas.new
      (Kind.color (match color_mode with | .accurate => true | .web => false))
      colorPacker0,
    mask_atlas := InnerAtlas.new Kind.mask maskPacker0,
    format := format,
    color_mode := color_mode }

/-- Method `TextAtlas::trim`: trim both planes. -/
def TextAtlas.trim {P : Type} (st : TextAtlas P) : TextAtlas P :=
  { st with mask_atlas := st.mask_atlas.trim,
            color_atlas := st.color_atlas.trim }

/-- Method `TextAtlas::grow`: dispatch to the plane of the given content
type. -/
def TextAtlas.grow {P : Type} (ops : PackerOps P) (fontRaster : FontRaster)
    (customRaster : CustomRaster) (content_type : ContentType)
    (scale_factor : Nat) (st : TextAtlas P) : Option (Bool × TextAtlas P) :=
  match content_type with
  | .mask =>
    (st.mask_atlas.grow ops fontRaster customRaster scale_factor).map
      (fun r => (r.1, { st with mask_atlas := r.2 }))
  | .color =>
    (st.color_atlas.grow ops fontRaster customRaster scale_factor).map
      (fun r => (r.1, { st with color_atlas := r.2 }))

/-- Method `TextAtlas::inner_for_content_mut`: the plane of the given
content type. -/
def TextAtlas.inner_for_content {P : Type} (st : TextAtlas P)
    (content_type : ContentType) : InnerAtlas P :=
  match content_type with
  | .color => st.color_atlas
  | .mask => st.mask_atlas

/-- Method `TextAtlas::get_or_create_pipeline` from `text_atlas.rs`
(lines 359–367).  The source forwards
`(device, self.format, sample_count)` to `Cache::get_or_create_pipeline`,
but the definition of that method in `cache.rs` (lines 62–66) accepts
only a compiler and a pixel format: the `sample_count` argument has no
matching parameter, so it cannot influence the lookup or the created
pipeline. -/
def TextAtlas.get_or_create_pipeline {P : Type} (compiler : MTLPixelFormat → Nat)
    (st : TextAtlas P) (sample_count : Nat) : Nat × TextAtlas P :=
  let r := Cache.get_or_create_pipeline compiler st.cache st.format
  (r.1, { st with cache := r.2 })

/-- Fold of `deallocate` over the region ids of the given cache entries
(the entries the eviction loop pops; zero-area entries contribute no
deallocation). -/
def deallocAll {P : Type} (ops : PackerOps P) (p : P)
    (es : List (GlyphonCacheKey × GlyphDetails)) : P :=
  (es.filterMap fun e => e.2.atlas_id).foldl ops.deallocate p

/-- The no-overlap invariant of an atlas plane (spec §3, "Invariants"):
atlas region ids referenced by cache entries are pairwise distinct; every
identity with a non-none placement owns a live allocator region of
matching size; no two live regions overlap; every live region lies in the
side_length × side_length square; and the allocator side length agrees
with the plane's recorded size. -/
structure PlaneInv {P : Type} (ops : PackerOps P) (st : InnerAtlas P) : Prop where
  ids_nodup : (st.glyph_cache.filterMap fun e => e.2.atlas_id).Nodup
  owns : ∀ e ∈ st.glyph_cache, ∀ i, e.2.atlas_id = some i →
    ∃ r, ops.regions st.packer i = some r ∧ r.w = e.2.width ∧ r.h = e.2.height
  disj : ∀ i j ri rj, i ≠ j → ops.regions st.packer i = some ri →
    ops.regions st.packer j = some rj → ri.disjoint rj
  bounds : ∀ i r, ops.regions st.packer i = some r →
    r.inBounds (ops.side st.packer)
  side_eq : ops.side st.packer = st.size

/-- A concrete spatial allocator used to instantiate the abstract packer
in witnesses: its state is the side length together with the association
list of live regions; it grants at most one allocation (at the origin,
when no region is live). -/
abbrev ToyPacker : Type := Nat × List (Nat × Rect)

/-- Live-region lookup of the concrete allocator. -/
def toyRegions (p : ToyPacker) (i : Nat) : Option Rect :=
  (p.2.find? fun e => decide (e.1 = i)).map (·.2)

/-- Operations of the concrete allocator. -/
def toyOps : PackerOps ToyPacker where
  allocate p w h :=
    if p.2 = [] ∧ 0 < w ∧ w ≤ p.1 ∧ 0 < h ∧ h ≤ p.1 then
      some ({ id := 0, rect := { x := 0, y := 0, w := w, h := h } },
        (p.1, [(0, { x := 0, y := 0, w := w, h := h })]))
    else none
  deallocate p j := (p.1, p.2.filter fun e => decide (e.1 ≠ j))
  grow p s := (s, p.2)
  regions := toyRegions
  side p := p.1

/-- A 32×32 region at the origin. -/
def rect32 : Rect := { x := 0, y := 0, w := 32, h := 32 }

/-- A zero-area glyph identity. -/
def exKeyZ : GlyphonCacheKey := .text ⟨0⟩

/-- A sized glyph identity. -/
def exKeyS : GlyphonCacheKey := .text ⟨1⟩

/-- Details of a zero-area glyph: none placement, no allocator region. -/
def exDetZ : GlyphDetails :=
  { width := 0, height := 0, gpu_cache := .skipRasterization, atlas_id := none }

/-- Details of a 32×32 glyph placed at the origin, owning region 5. -/
def exDetS : GlyphDetails :=
  { width := 32, height := 32, gpu_cache := .inAtlas 0 0, atlas_id := some 5 }

/-- A packer state whose single live region is region 5. -/
def exPacker : ToyPacker := (256, [(5, rect32)])

/-- A plane holding one sized in-use glyph. -/
def exSt1 : InnerAtlas ToyPacker :=
  { kind := .mask, texture := { side := 256, uploads := [] }, packer := exPacker,
    size := 256, glyph_cache := [(exKeyS, exDetS)], glyphs_in_use := [exKeyS] }

/-- A plane whose LRU entry is an in-use zero-area glyph, followed by an
evictable sized glyph. -/
def exSt6 : InnerAtlas ToyPacker :=
  { kind := .mask, texture := { side := 256, uploads := [] }, packer := exPacker,
    size := 256, glyph_cache := [(exKeyZ, exDetZ), (exKeyS, exDetS)],
    glyphs_in_use := [exKeyZ] }

/-- The same plane with the zero-area entry removed. -/
def exSt6b : InnerAtlas ToyPacker :=
  { kind := .mask, texture := { side := 256, uploads := [] }, packer := exPacker,
    size := 256, glyph_cache := [(exKeyS, exDetS)], glyphs_in_use := [exKeyZ] }

/-- An empty plane already at the platform maximum size. -/
def exStMax : InnerAtlas ToyPacker :=
  { kind := .mask, texture := { side := 16384, uploads := [] }, packer := (16384, []),
    size := 16384, glyph_cache := [], glyphs_in_use := [] }

/-- An empty plane at the initial size. -/
def exStSmall : InnerAtlas ToyPacker := InnerAtlas.new .mask (256, [])

/-- A font rasterizer that produces a fixed 32×32 image. -/
def exFontOk : FontRaster :=
  fun _ => some { width := 32, height := 32, data := List.replicate 1024 0 }

/-- A custom rasterizer that always fails. -/
def exCustomNone : CustomRaster := fun _ => none

/-- A two-plane atlas over empty planes, with an empty pipeline cache and
the BGRA8 surface format. -/
def exAtlas9 : TextAtlas ToyPacker :=
  { cache := [], color_atlas := InnerAtlas.new (.color true) (256, []),
    mask_atlas := InnerAtlas.new .mask (256, []), format := .bgra8Unorm,
    color_mode := .accurate }

/-- The upload command the re-upload loop of `InnerAtlas::grow` issues
for one cache entry: `none` models a panic, `some none` a skipped
(`SkipRasterization`) entry, `some (some u)` the upload `u` at the stored
coordinates. -/
def reuploadCommand (kind : Kind) (fontRaster : FontRaster)
    (customRaster : CustomRaster) (scale_factor : Nat)
    (entry : GlyphonCacheKey × GlyphDetails) : Option (Option Upload) :=
  match entry.2.gpu_cache with
  | .skipRasterization => some none
  | .inAtlas x y =>
    match entry.1 with
    | .text cache_key =>
      match fontRaster cache_key with
      | none => none
      | some image =>
        some (some
          { x := x, y := y, width := image.width, height := image.height,
            data := image.data, bytesPerRow := image.width * kind.num_channels })
    | .custom cache_key =>
      let input : RasterizeCustomGlyphRequest :=
        { id := cache_key.glyph_id, width := cache_key.width,
          height := cache_key.height, x_bin := cache_key.x_bin,
          y_bin := cache_key.y_bin, scale := scale_factor }
      match customRaster input with
      | none => none
      | some rasterized_glyph =>
        if rasterized_glyph.validate input (some kind.as_content_type) then
          some (some
            { x := x, y := y, width := cache_key.width,
              height := cache_key.height, data := rasterized_glyph.data,
              bytesPerRow := cache_key.width * kind.num_channels })
        else none

/-- The empty mask plane after one successful growth step. -/
def exStSmall512 : InnerAtlas ToyPacker :=
  { kind := .mask, texture := { side := 512, uploads := [] }, packer := (512, []),
    size := 512, glyph_cache := [], glyphs_in_use := [] }

/-- The implicit size invariant: the side length is 256·2^k for some k and
never exceeds the platform maximum. -/
def SizeInv (s : Nat) : Prop := ∃ k, s = 256 * 2 ^ k ∧ s ≤ 16384

/-- One public operation of a plane, with the collaborator inputs a call
carries. -/
inductive AtlasOp where
  | tryAlloc (width height : Nat)
  | growOp (fontRaster : FontRaster) (customRaster : CustomRaster) (scale_factor : Nat)
  | trimOp

/-- Apply one operation to a plane (`none` when `grow` panics). -/
def applyOp {P : Type} (ops : PackerOps P) (st : InnerAtlas P) :
    AtlasOp → Option (InnerAtlas P)
  | .tryAlloc width height => some (st.try_allocate ops width height).2
  | .growOp fontRaster customRaster scale_factor =>
    (st.grow ops fontRaster customRaster scale_factor).map (·.2)
  | .trimOp => some st.trim

/-- A custom glyph identity and placed details used in witnesses. -/
def exKeyC : GlyphonCacheKey := .custom { glyph_id := 9, width := 8, height := 8, x_bin := 0, y_bin := 0 }

/-- Details of the placed custom glyph. -/
def exDetC : GlyphDetails :=
  { width := 8, height := 8, gpu_cache := .inAtlas 16 16, atlas_id := some 7 }

/-- A plane holding one placed custom glyph. -/
def exSt8 : InnerAtlas ToyPacker :=
  { kind := .mask, texture := { side := 256, uploads := [] },
    packer := (256, [(7, { x := 16, y := 16, w := 8, h := 8 })]), size := 256,
    glyph_cache := [(exKeyC, exDetC)], glyphs_in_use := [] }

/-- The plane `exSt1` after a successful growth step: same cache and
in-use set, new 512-sided texture holding the single re-upload. -/
def exSt1Grown : InnerAtlas ToyPacker :=
  { kind := .mask,
    texture :=
      { side := 512,
        uploads :=
          [{ x := 0, y := 0, width := 32, height := 32,
             data := List.replicate 1024 0, bytesPerRow := 32 }] },
    packer := (512, [(5, rect32)]), size := 512,
    glyph_cache := [(exKeyS, exDetS)], glyphs_in_use := [exKeyS] }

theorem tryAllocateGo_alloc_some {P : Type} {ops : PackerOps P} {inUse width height p a p2}
    {cache : List (GlyphonCacheKey × GlyphDetails)}
    (ha : ops.allocate p width height = some (a, p2)) :
    tryAllocateGo ops inUse width height p cache = (some a, p2, cache) := by
  rw [tryAllocateGo]
  simp [ha]

theorem tryAllocateGo_scan_empty {P : Type} {ops : PackerOps P} {inUse width height p}
    {cache : List (GlyphonCacheKey × GlyphDetails)}
    (ha : ops.allocate p width height = none)
    (hs : scanLru inUse cache = .empty) :
    tryAllocateGo ops inUse width height p cache = (none, p, []) := by
  rw [tryAllocateGo]
  simp only [ha]
  split <;> rename_i heq <;> rw [hs] at heq <;> first | rfl | cases heq

theorem tryAllocateGo_scan_blocked {P : Type} {ops : PackerOps P} {inUse width height p}
    {cache c : List (GlyphonCacheKey × GlyphDetails)}
    (ha : ops.allocate p width height = none)
    (hs : scanLru inUse cache = .blocked c) :
    tryAllocateGo ops inUse width height p cache = (none, p, c) := by
  rw [tryAllocateGo]
  simp only [ha]
  split <;> rename_i heq <;> rw [hs] at heq <;> first | (cases heq; rfl) | cases heq

theorem tryAllocateGo_found_inuse {P : Type} {ops : PackerOps P} {inUse width height p k v aid}
    {cache rest : List (GlyphonCacheKey × GlyphDetails)}
    (ha : ops.allocate p width height = none)
    (hs : scanLru inUse cache = .found k v aid rest)
    (hk : inUse k = true) :
    tryAllocateGo ops inUse width height p cache = (none, p, (k, v) :: rest) := by
  rw [tryAllocateGo]
  simp only [ha]
  split <;> rename_i heq <;> rw [hs] at heq <;> first | (cases heq; simp [hk]) | cases heq

theorem tryAllocateGo_found_evict {P : Type} {ops : PackerOps P} {inUse width height p k v aid}
    {cache rest : List (GlyphonCacheKey × GlyphDetails)}
    (ha : ops.allocate p width height = none)
    (hs : scanLru inUse cache = .found k v aid rest)
    (hk : inUse k = false) :
    tryAllocateGo ops inUse width height p cache =
      tryAllocateGo ops inUse width height (ops.deallocate p aid) rest := by
  rw [tryAllocateGo]
  simp only [ha]
  split <;> rename_i heq <;> rw [hs] at heq <;> first | (cases heq; simp [hk]) | cases heq

/-- Full characterization of the zero-area scan: some prefix of the cache
consists of zero-area entries that are not in use, and after that prefix
the scan either ran out of entries, or stopped at an in-use zero-area
entry, or found an entry with an actual size. -/
theorem scanLru_spec (inUse : GlyphonCacheKey → Bool)
    (cache : List (GlyphonCacheKey × GlyphDetails)) :
    ∃ m, m ≤ cache.length ∧
      (∀ e ∈ cache.take m, inUse e.1 = false ∧ e.2.atlas_id = none) ∧
      ((scanLru inUse cache = .empty ∧ cache.drop m = []) ∨
        (∃ k v rest, cache.drop m = (k, v) :: rest ∧
          ((scanLru inUse cache = .blocked ((k, v) :: rest) ∧
              inUse k = true ∧ v.atlas_id = none) ∨
            (∃ aid, scanLru inUse cache = .found k v aid rest ∧
              v.atlas_id = some aid)))) := by
  induction cache with
  | nil => exact ⟨0, by simp, by simp, Or.inl ⟨rfl, rfl⟩⟩
  | cons e rest ih =>
    obtain ⟨k, v⟩ := e
    cases hid : v.atlas_id with
    | some aid =>
      refine ⟨0, by simp, by simp, Or.inr ⟨k, v, rest, rfl, Or.inr ⟨aid, ?_, hid⟩⟩⟩
      simp [scanLru, hid]
    | none =>
      by_cases hu : inUse k
      · refine ⟨0, by simp, by simp, Or.inr ⟨k, v, rest, rfl, Or.inl ⟨?_, hu, hid⟩⟩⟩
        simp [scanLru, hid, hu]
      · obtain ⟨m, hm, htake, hrest⟩ := ih
        have hscan : scanLru inUse ((k, v) :: rest) = scanLru inUse rest := by
          simp [scanLru, hid, hu]
        refine ⟨m + 1, by simpa using hm, ?_, ?_⟩
        · intro e he
          rw [List.take_succ_cons, List.mem_cons] at he
          rcases he with rfl | he
          · exact ⟨by simpa using hu, hid⟩
          · exact htake e he
        · rw [List.drop_succ_cons, hscan]
          exact hrest

theorem deallocAll_of_all_none {P : Type} {ops : PackerOps P} {p : P}
    {es : List (GlyphonCacheKey × GlyphDetails)}
    (h : ∀ e ∈ es, e.2.atlas_id = none) : deallocAll ops p es = p := by
  unfold deallocAll
  rw [List.filterMap_eq_nil_iff.mpr h]
  rfl

theorem foldl_deallocate_regions {P : Type} {ops : PackerOps P}
    (hc : PackerContract ops) :
    ∀ (ids : List Nat) (p : P) (i : Nat),
      ops.regions (ids.foldl ops.deallocate p) i =
        if i ∈ ids then none else ops.regions p i := by
  intro ids
  induction ids with
  | nil => simp
  | cons j ids ih =>
    intro p i
    rw [List.foldl_cons, ih]
    rcases (hc.deallocate_spec p j) with ⟨hr, _⟩
    by_cases hmem : i ∈ ids
    · simp [hmem]
    · by_cases hij : i = j
      · simp [hmem, hij, hr]
      · simp [hmem, hij, hr]

theorem foldl_deallocate_side {P : Type} {ops : PackerOps P}
    (hc : PackerContract ops) :
    ∀ (ids : List Nat) (p : P),
      ops.side (ids.foldl ops.deallocate p) = ops.side p := by
  intro ids
  induction ids with
  | nil => simp
  | cons j ids ih =>
    intro p
    rw [List.foldl_cons, ih]
    exact (hc.deallocate_spec p j).2

theorem Rect.disjoint_comm {r s : Rect} (h : r.disjoint s) : s.disjoint r := by
  unfold Rect.disjoint at h ⊢
  tauto

theorem Rect.inBounds_mono {r : Rect} {s t : Nat} (h : r.inBounds s) (hst : s ≤ t) :
    r.inBounds t :=
  ⟨Nat.le_trans h.1 hst, Nat.le_trans h.2 hst⟩

theorem toy_find_filter (j i : Nat) :
    ∀ l : List (Nat × Rect),
      ((l.filter fun e => decide (e.1 ≠ j)).find? fun e => decide (e.1 = i)) =
        if i = j then none else l.find? fun e => decide (e.1 = i) := by
  intro l
  induction l with
  | nil => by_cases hij : i = j <;> simp [hij]
  | cons e l ih =>
    rw [List.filter_cons]
    by_cases hej : e.1 = j
    · rw [show (decide (e.1 ≠ j)) = false by simp [hej]]
      rw [if_neg (by simp)]
      rw [ih]
      by_cases hij : i = j
      · rw [if_pos hij, if_pos hij]
      · rw [if_neg hij, if_neg hij, List.find?_cons]
        rw [show (decide (e.1 = i)) = false by
          simp only [decide_eq_false_iff_not]
          rw [hej]
          exact fun hc => hij hc.symm]
    · rw [show (decide (e.1 ≠ j)) = true by simpa using hej]
      rw [if_pos rfl, List.find?_cons, List.find?_cons]
      by_cases hei : e.1 = i
      · have hij : ¬i = j := fun hc => hej (by rw [hei, hc])
        rw [show (decide (e.1 = i)) = true by simp [hei], if_neg hij]
      · rw [show (decide (e.1 = i)) = false by simp [hei]]
        by_cases hij : i = j
        · rw [if_pos hij]
          rw [if_pos hij] at ih
          exact ih
        · rw [if_neg hij]
          rw [if_neg hij] at ih
          exact ih

/-- The concrete allocator satisfies the spec contract of the
`SpatialAllocator` collaborator. -/
theorem toyContract : PackerContract toyOps := by
  constructor
  · intro p w h a p2 hal
    unfold toyOps at hal
    simp only at hal
    split at hal
    · rename_i hcond
      obtain ⟨hnil, hw0, hw, hh0, hh⟩ := hcond
      cases hal
      refine ⟨?_, rfl, rfl, ⟨by simpa using hw, by simpa using hh⟩, ?_, ?_, rfl⟩
      · simp [toyOps, toyRegions, hnil]
      · intro i r hr
        simp [toyOps, toyRegions, hnil] at hr
      · intro i
        by_cases hi : i = 0
        · simp [toyOps, toyRegions, hnil, hi]
        · simp [toyOps, toyRegions, hnil, hi, Ne.symm hi]
    · cases hal
  · intro p j
    constructor
    · intro i
      simp only [toyOps, toyRegions]
      rw [toy_find_filter]
      by_cases hij : i = j <;> simp [hij]
    · rfl
  · intro p s _
    exact ⟨fun i => rfl, rfl⟩

/-- Master characterization of the eviction loop: it pops some prefix of
the glyph cache, every popped entry is not in use, the packer undergoes
exactly the deallocations of the popped sized entries, and the loop either
returns a successful allocation made on the resulting packer state, or
fails with the packer in exactly that state because the cache ran out or
because the next least-recently-used entry is in use. -/
theorem tryAllocateGo_spec {P : Type} (ops : PackerOps P)
    (inUse : GlyphonCacheKey → Bool) (width height : Nat) :
    ∀ (N : Nat) (cache : List (GlyphonCacheKey × GlyphDetails)) (p : P),
      cache.length ≤ N →
      ∃ n, n ≤ cache.length ∧
        (∀ e ∈ cache.take n, inUse e.1 = false) ∧
        ((∃ a p2,
            ops.allocate (deallocAll ops p (cache.take n)) width height = some (a, p2) ∧
            tryAllocateGo ops inUse width height p cache = (some a, p2, cache.drop n)) ∨
          (ops.allocate (deallocAll ops p (cache.take n)) width height = none ∧
            tryAllocateGo ops inUse width height p cache =
              (none, deallocAll ops p (cache.take n), cache.drop n) ∧
            (cache.drop n = [] ∨
              ∃ k v rest, cache.drop n = (k, v) :: rest ∧ inUse k = true))) := by
  intro N
  induction N with
  | zero =>
    intro cache p hlen
    have hc : cache = [] := List.length_eq_zero.mp (Nat.le_zero.mp hlen)
    subst hc
    refine ⟨0, by simp, by simp, ?_⟩
    cases ha : ops.allocate p width height with
    | some ap =>
      exact Or.inl ⟨ap.1, ap.2, ha, by rw [tryAllocateGo_alloc_some ha]; rfl⟩
    | none =>
      refine Or.inr ⟨ha, ?_, Or.inl rfl⟩
      rw [tryAllocateGo_scan_empty ha (show scanLru inUse [] = .empty from rfl)]
      exact rfl
  | succ N IH =>
    intro cache p hlen
    cases ha : ops.allocate p width height with
    | some ap =>
      refine ⟨0, by simp, by simp, Or.inl ⟨ap.1, ap.2, ?_, ?_⟩⟩
      · simpa [deallocAll] using ha
      · rw [tryAllocateGo_alloc_some ha]
        simp
    | none =>
      obtain ⟨m, hm, htake, hcase⟩ := scanLru_spec inUse cache
      have hdl : deallocAll ops p (cache.take m) = p :=
        deallocAll_of_all_none (fun e he => (htake e he).2)
      rcases hcase with ⟨hse, hdrop⟩ | ⟨k, v, rest, hdrop, hkv⟩
      · refine ⟨m, hm, fun e he => (htake e he).1, Or.inr ?_⟩
        rw [hdl, hdrop]
        exact ⟨ha, by rw [tryAllocateGo_scan_empty ha hse], Or.inl rfl⟩
      · rcases hkv with ⟨hsb, hk, _⟩ | ⟨aid, hsf, hid⟩
        · refine ⟨m, hm, fun e he => (htake e he).1, Or.inr ?_⟩
          rw [hdl, hdrop]
          exact ⟨ha, by rw [tryAllocateGo_scan_blocked ha hsb],
            Or.inr ⟨k, v, rest, rfl, hk⟩⟩
        · by_cases hku : inUse k = true
          · refine ⟨m, hm, fun e he => (htake e he).1, Or.inr ?_⟩
            rw [hdl, hdrop]
            exact ⟨ha, by rw [tryAllocateGo_found_inuse ha hsf hku],
              Or.inr ⟨k, v, rest, rfl, hku⟩⟩
          · have hku2 : inUse k = false := by simpa using hku
            have hsplit : cache.take m ++ (k, v) :: rest = cache := by
              conv_rhs => rw [← List.take_append_drop m cache]
              rw [hdrop]
            have hAlen : (cache.take m).length = m := by
              rw [List.length_take]
              exact Nat.min_eq_left hm
            have hclen : cache.length = m + 1 + rest.length := by
              rw [← hsplit]
              simp [hAlen]
              omega
            have hrl : rest.length ≤ N := by omega
            obtain ⟨n2, hn2, htake2, hres2⟩ := IH rest (ops.deallocate p aid) hrl
            have htk : cache.take (m + 1 + n2) = cache.take m ++ (k, v) :: rest.take n2 := by
              conv_lhs => rw [← hsplit]
              have : m + 1 + n2 = (cache.take m).length + (1 + n2) := by omega
              rw [this, List.take_append, show 1 + n2 = n2 + 1 from Nat.add_comm 1 n2,
                List.take_succ_cons]
            have hdr : cache.drop (m + 1 + n2) = rest.drop n2 := by
              conv_lhs => rw [← hsplit]
              have : m + 1 + n2 = (cache.take m).length + (1 + n2) := by omega
              rw [this, List.drop_append, show 1 + n2 = n2 + 1 from Nat.add_comm 1 n2,
                List.drop_succ_cons]
            have hda : deallocAll ops p (cache.take (m + 1 + n2)) =
                deallocAll ops (ops.deallocate p aid) (rest.take n2) := by
              rw [htk]
              unfold deallocAll
              rw [List.filterMap_append, List.filterMap_cons,
                List.filterMap_eq_nil_iff.mpr (fun e he => (htake e he).2), hid]
              simp
            have hloop : tryAllocateGo ops inUse width height p cache =
                tryAllocateGo ops inUse width height (ops.deallocate p aid) rest :=
              tryAllocateGo_found_evict ha hsf hku2
            refine ⟨m + 1 + n2, by omega, ?_, ?_⟩
            · intro e he
              rw [htk, List.mem_append, List.mem_cons] at he
              rcases he with he | he | he
              · exact (htake e he).1
              · rw [he]
                exact hku2
              · exact htake2 e he
            · rw [hda, hdr, hloop]
              exact hres2

/-- Preservation of the plane invariant by `try_allocate`, assuming the
allocator contract. -/
theorem try_allocate_preserves_inv {P : Type} {ops : PackerOps P}
    (hc : PackerContract ops) (st : InnerAtlas P) (hinv : PlaneInv ops st)
    (width height : Nat) :
    PlaneInv ops (st.try_allocate ops width height).2 := by
  obtain ⟨n, hn, htake, hres⟩ :=
    tryAllocateGo_spec ops (fun k => decide (k ∈ st.glyphs_in_use)) width height
      st.glyph_cache.length st.glyph_cache st.packer (Nat.le_refl _)
  have hsplitIds : st.glyph_cache.filterMap (fun e => e.2.atlas_id) =
      (st.glyph_cache.take n).filterMap (fun e => e.2.atlas_id) ++
        (st.glyph_cache.drop n).filterMap (fun e => e.2.atlas_id) := by
    rw [← List.filterMap_append, List.take_append_drop]
  have hnodup2 : ((st.glyph_cache.take n).filterMap (fun e => e.2.atlas_id) ++
      (st.glyph_cache.drop n).filterMap (fun e => e.2.atlas_id)).Nodup := by
    rw [← hsplitIds]
    exact hinv.ids_nodup
  rw [List.nodup_append] at hnodup2
  obtain ⟨hnodupA, hnodupSu, hdisjId⟩ := hnodup2
  have hregion_pf : ∀ i,
      ops.regions (deallocAll ops st.packer (st.glyph_cache.take n)) i =
        if i ∈ (st.glyph_cache.take n).filterMap (fun e => e.2.atlas_id) then none
        else ops.regions st.packer i := by
    intro i
    exact foldl_deallocate_regions hc _ _ _
  have hside_pf : ops.side (deallocAll ops st.packer (st.glyph_cache.take n)) =
      ops.side st.packer := foldl_deallocate_side hc _ _
  have hlive_pf : ∀ i r,
      ops.regions (deallocAll ops st.packer (st.glyph_cache.take n)) i = some r →
      ops.regions st.packer i = some r := by
    intro i r hr
    rw [hregion_pf i] at hr
    by_cases hmem : i ∈ (st.glyph_cache.take n).filterMap (fun e => e.2.atlas_id)
    · rw [if_pos hmem] at hr
      cases hr
    · rwa [if_neg hmem] at hr
  have howns_pf : ∀ e ∈ st.glyph_cache.drop n, ∀ i, e.2.atlas_id = some i →
      ∃ r, ops.regions (deallocAll ops st.packer (st.glyph_cache.take n)) i = some r ∧
        r.w = e.2.width ∧ r.h = e.2.height := by
    intro e he i hid
    have hiMem : i ∈ (st.glyph_cache.drop n).filterMap (fun e => e.2.atlas_id) :=
      List.mem_filterMap.mpr ⟨e, he, hid⟩
    have hiNot : i ∉ (st.glyph_cache.take n).filterMap (fun e => e.2.atlas_id) :=
      fun hcon => (hdisjId hcon) hiMem
    obtain ⟨r, hr, hw, hh⟩ :=
      hinv.owns e (List.mem_of_mem_drop he) i hid
    refine ⟨r, ?_, hw, hh⟩
    rw [hregion_pf i, if_neg hiNot]
    exact hr
  rcases hres with ⟨a, p2, hal, heq⟩ | ⟨hal, heq, _⟩
  · obtain ⟨hfresh, _, _, hbnd, hdisjNew, hupd, hside2⟩ :=
      hc.allocate_spec _ width height a p2 hal
    have hta : (st.try_allocate ops width height).2 =
        { st with packer := p2, glyph_cache := st.glyph_cache.drop n } := by
      unfold InnerAtlas.try_allocate
      rw [heq]
    rw [hta]
    constructor
    · exact hnodupSu
    · intro e he i hid
      obtain ⟨r, hr, hw, hh⟩ := howns_pf e he i hid
      refine ⟨r, ?_, hw, hh⟩
      rw [hupd i]
      have hne : i ≠ a.id := by
        intro hcon
        rw [hcon, hfresh] at hr
        cases hr
      rw [if_neg hne]
      exact hr
    · intro i j ri rj hne hri hrj
      rw [hupd i] at hri
      rw [hupd j] at hrj
      by_cases hia : i = a.id
      · rw [if_pos hia] at hri
        cases hri
        have hja : ¬j = a.id := fun hcon => hne (hia.trans hcon.symm)
        rw [if_neg hja] at hrj
        exact hdisjNew j rj hrj
      · rw [if_neg hia] at hri
        by_cases hja : j = a.id
        · rw [if_pos hja] at hrj
          cases hrj
          exact Rect.disjoint_comm (hdisjNew i ri hri)
        · rw [if_neg hja] at hrj
          exact hinv.disj i j ri rj hne (hlive_pf i ri hri) (hlive_pf j rj hrj)
    · intro i r hr
      rw [hupd i] at hr
      have hsideEq : ops.side p2 = ops.side st.packer := by
        rw [hside2, hside_pf]
      rw [hsideEq]
      by_cases hia : i = a.id
      · rw [if_pos hia] at hr
        cases hr
        rw [← hside_pf]
        exact hbnd
      · rw [if_neg hia] at hr
        exact hinv.bounds i r (hlive_pf i r hr)
    · show ops.side p2 = st.size
      rw [hside2, hside_pf]
      exact hinv.side_eq
  · have hta : (st.try_allocate ops width height).2 =
        { st with packer := deallocAll ops st.packer (st.glyph_cache.take n),
                  glyph_cache := st.glyph_cache.drop n } := by
      unfold InnerAtlas.try_allocate
      rw [heq]
    rw [hta]
    constructor
    · exact hnodupSu
    · exact howns_pf
    · intro i j ri rj hne hri hrj
      exact hinv.disj i j ri rj hne (hlive_pf i ri hri) (hlive_pf j rj hrj)
    · intro i r hr
      rw [hside_pf]
      exact hinv.bounds i r (hlive_pf i r hr)
    · show ops.side (deallocAll ops st.packer (st.glyph_cache.take n)) = st.size
      rw [hside_pf]
      exact hinv.side_eq

/-- Preservation of the plane invariant by `grow`, assuming the allocator
contract. -/
theorem grow_preserves_inv {P : Type} {ops : PackerOps P}
    (hc : PackerContract ops) (st : InnerAtlas P) (hinv : PlaneInv ops st)
    (fontRaster : FontRaster) (customRaster : CustomRaster) (scale_factor : Nat)
    {b : Bool} {st2 : InnerAtlas P}
    (hgrow : st.grow ops fontRaster customRaster scale_factor = some (b, st2)) :
    PlaneInv ops st2 := by
  simp only [InnerAtlas.grow] at hgrow
  by_cases hmax : st.size ≥ InnerAtlas.MAX_TEXTURE_DIMENSION_2D
  · rw [if_pos hmax] at hgrow
    cases hgrow
    exact hinv
  · rw [if_neg hmax] at hgrow
    split at hgrow
    · cases hgrow
    · rename_i tex2 hfold
      cases hgrow
      have hle : ops.side st.packer ≤
          min (st.size * GROWTH_FACTOR) InnerAtlas.MAX_TEXTURE_DIMENSION_2D := by
        rw [hinv.side_eq]
        refine Nat.le_min.mpr ⟨?_, ?_⟩
        · exact Nat.le_mul_of_pos_right st.size (by norm_num [GROWTH_FACTOR])
        · exact Nat.le_of_lt (Nat.lt_of_not_le hmax)
      obtain ⟨hreg, hside⟩ := hc.grow_spec st.packer
        (min (st.size * GROWTH_FACTOR) InnerAtlas.MAX_TEXTURE_DIMENSION_2D) hle
      constructor
      · exact hinv.ids_nodup
      · intro e he i hid
        obtain ⟨r, hr, hw, hh⟩ := hinv.owns e he i hid
        exact ⟨r, by rw [hreg i]; exact hr, hw, hh⟩
      · intro i j ri rj hne hri hrj
        rw [hreg i] at hri
        rw [hreg j] at hrj
        exact hinv.disj i j ri rj hne hri hrj
      · intro i r hr
        rw [hreg i] at hr
        rw [hside]
        exact Rect.inBounds_mono (hinv.bounds i r hr) hle
      · exact hside

/-- Preservation of the plane invariant by `trim`. -/
theorem trim_preserves_inv {P : Type} {ops : PackerOps P}
    (st : InnerAtlas P) (hinv : PlaneInv ops st) : PlaneInv ops st.trim :=
  ⟨hinv.ids_nodup, hinv.owns, hinv.disj, hinv.bounds, hinv.side_eq⟩

/-- C7: `TextAtlas::trim` clears the in-use set on both the mask and color
planes and modifies nothing else — recency caches, allocators, textures,
sizes, kinds, the pipeline cache, the format and the color mode are all
untouched — so trimming twice equals trimming once. -/
theorem trim_idempotent_frame {P : Type} (st : TextAtlas P) :
    st.trim.trim = st.trim ∧
    st.trim.mask_atlas.glyphs_in_use = [] ∧
    st.trim.color_atlas.glyphs_in_use = [] ∧
    st.trim.mask_atlas.glyph_cache = st.mask_atlas.glyph_cache ∧
    st.trim.color_atlas.glyph_cache = st.color_atlas.glyph_cache ∧
    st.trim.mask_atlas.packer = st.mask_atlas.packer ∧
    st.trim.color_atlas.packer = st.color_atlas.packer ∧
    st.trim.mask_atlas.texture = st.mask_atlas.texture ∧
    st.trim.color_atlas.texture = st.color_atlas.texture ∧
    st.trim.mask_atlas.size = st.mask_atlas.size ∧
    st.trim.color_atlas.size = st.color_atlas.size ∧
    st.trim.mask_atlas.kind = st.mask_atlas.kind ∧
    st.trim.color_atlas.kind = st.color_atlas.kind ∧
    st.trim.cache = st.cache ∧
    st.trim.format = st.format ∧
    st.trim.color_mode = st.color_mode :=
  ⟨rfl, rfl, rfl, rfl, rfl, rfl, rfl, rfl, rfl, rfl, rfl, rfl, rfl, rfl, rfl, rfl⟩

/-- C9: the shared pipeline cache of `cache.rs` keys its memo by the pixel
format alone.  The `sample_count` parameter accepted by
`TextAtlas::get_or_create_pipeline` cannot influence the result (the
`Cache::get_or_create_pipeline` definition it forwards to has no matching
parameter), so a second call that differs only in the multisample count
returns the pipeline created by the first call, with the cache state
unchanged — contradicting a key of (pixel format, multisample count). -/
theorem pipeline_cache_ignores_sample_count :
    (∀ (P : Type) (compiler : MTLPixelFormat → Nat) (st : TextAtlas P)
        (sc1 sc2 : Nat),
      st.get_or_create_pipeline compiler sc1 = st.get_or_create_pipeline compiler sc2) ∧
    (exAtlas9.get_or_create_pipeline (fun _ => 7) 1).1 = 7 ∧
    ((exAtlas9.get_or_create_pipeline (fun _ => 7) 1).2.get_or_create_pipeline
        (fun _ => 7) 4).1 = 7 ∧
    ((exAtlas9.get_or_create_pipeline (fun _ => 7) 1).2.get_or_create_pipeline
        (fun _ => 7) 4).2.cache =
      (exAtlas9.get_or_create_pipeline (fun _ => 7) 1).2.cache ∧
    (exAtlas9.get_or_create_pipeline (fun _ => 7) 1).2.cache =
      [(MTLPixelFormat.bgra8Unorm, 7)] :=
  ⟨fun _ _ _ _ _ => rfl, rfl, rfl, rfl, rfl⟩

theorem reuploadGlyph_as_command (kind : Kind) (fontRaster : FontRaster)
    (customRaster : CustomRaster) (scale_factor : Nat) (tex : Texture)
    (entry : GlyphonCacheKey × GlyphDetails) :
    reuploadGlyph kind fontRaster customRaster scale_factor tex entry =
      match reuploadCommand kind fontRaster customRaster scale_factor entry with
      | none => none
      | some none => some tex
      | some (some u) => some { tex with uploads := tex.uploads ++ [u] } := by
  obtain ⟨k, v⟩ := entry
  obtain ⟨vw, vh, vg, vid⟩ := v
  cases vg with
  | skipRasterization => rfl
  | inAtlas x y =>
    cases k with
    | text cache_key =>
      simp only [reuploadGlyph, reuploadCommand]
      cases hfr : fontRaster cache_key
      · rfl
      · rfl
    | custom cache_key =>
      simp only [reuploadGlyph, reuploadCommand]
      cases hcr : customRaster
          { id := cache_key.glyph_id, width := cache_key.width,
            height := cache_key.height, x_bin := cache_key.x_bin,
            y_bin := cache_key.y_bin, scale := scale_factor }
      · rfl
      · rename_i rg
        by_cases hv : rg.validate
            { id := cache_key.glyph_id, width := cache_key.width,
              height := cache_key.height, x_bin := cache_key.x_bin,
              y_bin := cache_key.y_bin, scale := scale_factor }
            (some kind.as_content_type) = true
        · simp only [if_pos hv]
          rfl
        · simp only [if_neg hv]

/-- Characterization of a successful re-upload pass: the texture side is
unchanged, the uploads are exactly the commands of the entries in cache
order, and no entry panicked. -/
theorem foldlM_reupload_spec (kind : Kind) (fontRaster : FontRaster)
    (customRaster : CustomRaster) (scale_factor : Nat) :
    ∀ (cache : List (GlyphonCacheKey × GlyphDetails)) (tex0 tex2 : Texture),
      cache.foldlM (reuploadGlyph kind fontRaster customRaster scale_factor) tex0 =
        some tex2 →
      tex2.side = tex0.side ∧
      tex2.uploads = tex0.uploads ++ cache.filterMap
        (fun e => (reuploadCommand kind fontRaster customRaster scale_factor e).join) ∧
      (∀ e ∈ cache,
        reuploadCommand kind fontRaster customRaster scale_factor e ≠ none) := by
  intro cache
  induction cache with
  | nil =>
    intro tex0 tex2 h
    simp only [List.foldlM_nil, pure, Option.some.injEq] at h
    subst h
    refine ⟨rfl, by simp, by simp⟩
  | cons e cache ih =>
    intro tex0 tex2 h
    rw [List.foldlM_cons, reuploadGlyph_as_command] at h
    cases hcmd : reuploadCommand kind fontRaster customRaster scale_factor e with
    | none =>
      rw [hcmd] at h
      cases h
    | some u? =>
      rw [hcmd] at h
      cases u? with
      | none =>
        simp only [Option.some_bind] at h
        obtain ⟨h1, h2, h3⟩ := ih tex0 tex2 h
        refine ⟨h1, ?_, ?_⟩
        · rw [h2, List.filterMap_cons, hcmd]
          simp [Option.join]
        · intro e2 he2
          rw [List.mem_cons] at he2
          rcases he2 with rfl | he2
          · rw [hcmd]
            exact fun hcon => Option.noConfusion hcon
          · exact h3 e2 he2
      | some u =>
        simp only [Option.some_bind] at h
        obtain ⟨h1, h2, h3⟩ := ih _ tex2 h
        refine ⟨h1, ?_, ?_⟩
        · rw [h2, List.filterMap_cons, hcmd]
          simp [Option.join, List.append_assoc]
        · intro e2 he2
          rw [List.mem_cons] at he2
          rcases he2 with rfl | he2
          · rw [hcmd]
            exact fun hcon => Option.noConfusion hcon
          · exact h3 e2 he2

/-- Case analysis of `InnerAtlas::grow` when it returns without
panicking. -/
theorem grow_cases {P : Type} (ops : PackerOps P) (fontRaster : FontRaster)
    (customRaster : CustomRaster) (scale_factor : Nat) (st : InnerAtlas P)
    {b : Bool} {st2 : InnerAtlas P}
    (h : st.grow ops fontRaster customRaster scale_factor = some (b, st2)) :
    (st.size ≥ InnerAtlas.MAX_TEXTURE_DIMENSION_2D ∧ b = false ∧ st2 = st) ∨
    (st.size < InnerAtlas.MAX_TEXTURE_DIMENSION_2D ∧ b = true ∧
      st2.kind = st.kind ∧
      st2.glyph_cache = st.glyph_cache ∧
      st2.glyphs_in_use = st.glyphs_in_use ∧
      st2.size = min (st.size * GROWTH_FACTOR) InnerAtlas.MAX_TEXTURE_DIMENSION_2D ∧
      st2.packer = ops.grow st.packer st2.size ∧
      st.glyph_cache.foldlM (reuploadGlyph st.kind fontRaster customRaster scale_factor)
        { side := st2.size, uploads := [] } = some st2.texture) := by
  simp only [InnerAtlas.grow] at h
  by_cases hmax : st.size ≥ InnerAtlas.MAX_TEXTURE_DIMENSION_2D
  · rw [if_pos hmax] at h
    cases h
    exact Or.inl ⟨hmax, rfl, rfl⟩
  · rw [if_neg hmax] at h
    split at h
    · cases h
    · rename_i tex2 hfold
      cases h
      exact Or.inr ⟨Nat.lt_of_not_le hmax, rfl, rfl, rfl, rfl, rfl, rfl, hfold⟩

/-- Early-exit behaviour of `InnerAtlas::grow` at the maximum size. -/
theorem grow_at_max {P : Type} (ops : PackerOps P) (fontRaster : FontRaster)
    (customRaster : CustomRaster) (scale_factor : Nat) (st : InnerAtlas P)
    (hmax : st.size ≥ InnerAtlas.MAX_TEXTURE_DIMENSION_2D) :
    st.grow ops fontRaster customRaster scale_factor = some (false, st) := by
  simp only [InnerAtlas.grow]
  rw [if_pos hmax]

/-- C4: `grow` returns `false` exactly when the plane's side length has
reached the platform maximum 16384, leaving the plane unchanged in that
case; otherwise (when it returns at all) it returns `true`, doubles the
side length capped at the maximum, grows the allocator to the new side
length and creates a new texture of that size (re-populated only by the
re-upload pass). -/
theorem grow_return_and_size {P : Type} (ops : PackerOps P)
    (fontRaster : FontRaster) (customRaster : CustomRaster) (scale_factor : Nat)
    (st : InnerAtlas P) :
    (st.size ≥ InnerAtlas.MAX_TEXTURE_DIMENSION_2D →
      st.grow ops fontRaster customRaster scale_factor = some (false, st)) ∧
    (∀ b st2, st.grow ops fontRaster customRaster scale_factor = some (b, st2) →
      b = false → st.size ≥ InnerAtlas.MAX_TEXTURE_DIMENSION_2D ∧ st2 = st) ∧
    (∀ b st2, st.grow ops fontRaster customRaster scale_factor = some (b, st2) →
      st.size < InnerAtlas.MAX_TEXTURE_DIMENSION_2D →
      b = true ∧
      st2.size = min (st.size * GROWTH_FACTOR) InnerAtlas.MAX_TEXTURE_DIMENSION_2D ∧
      st2.packer = ops.grow st.packer st2.size ∧
      st2.texture.side = st2.size ∧
      st.glyph_cache.foldlM (reuploadGlyph st.kind fontRaster customRaster scale_factor)
        { side := st2.size, uploads := [] } = some st2.texture) := by
  refine ⟨grow_at_max ops fontRaster customRaster scale_factor st, ?_, ?_⟩
  · intro b st2 h hb
    rcases grow_cases ops fontRaster customRaster scale_factor st h with
      ⟨hmax, _, hst⟩ | ⟨_, hb2, _⟩
    · exact ⟨hmax, hst⟩
    · rw [hb] at hb2
      cases hb2
  · intro b st2 h hlt
    rcases grow_cases ops fontRaster customRaster scale_factor st h with
      ⟨hmax, _, _⟩ | ⟨_, hb, _, _, _, hsz, hpk, hfold⟩
    · exact absurd hmax (Nat.not_le_of_lt hlt)
    · refine ⟨hb, hsz, hpk, ?_, hfold⟩
      exact (foldlM_reupload_spec st.kind fontRaster customRaster scale_factor
        st.glyph_cache _ _ hfold).1

theorem grow_return_and_size_witness :
    exStMax.grow toyOps exFontOk exCustomNone 0 = some (false, exStMax) ∧
    exStSmall.grow toyOps exFontOk exCustomNone 0 = some (true, exStSmall512) ∧
    exStSmall512.size =
      min (exStSmall.size * GROWTH_FACTOR) InnerAtlas.MAX_TEXTURE_DIMENSION_2D := by
  have hg : exStSmall.grow toyOps exFontOk exCustomNone 0 = some (true, exStSmall512) := rfl
  have h2 := (grow_return_and_size toyOps exFontOk exCustomNone 0 exStSmall).2.2
    true exStSmall512 hg (by decide)
  exact ⟨(grow_return_and_size toyOps exFontOk exCustomNone 0 exStMax).1 (by decide),
    hg, h2.2.1⟩

theorem SizeInv_bounds {s : Nat} (h : SizeInv s) : 256 ≤ s ∧ s ≤ 16384 := by
  obtain ⟨k, rfl, hle⟩ := h
  exact ⟨Nat.le_mul_of_pos_right 256 (Nat.pos_pow_of_pos k (by norm_num)), hle⟩

theorem grow_size_double {s : Nat} (hinv : SizeInv s)
    (hlt : s < InnerAtlas.MAX_TEXTURE_DIMENSION_2D) :
    min (s * GROWTH_FACTOR) InnerAtlas.MAX_TEXTURE_DIMENSION_2D = 2 * s ∧
      SizeInv (2 * s) := by
  obtain ⟨k, rfl, hle⟩ := hinv
  have hmax : InnerAtlas.MAX_TEXTURE_DIMENSION_2D = 256 * 2 ^ 6 := by
    norm_num [InnerAtlas.MAX_TEXTURE_DIMENSION_2D]
  rw [hmax] at hlt
  have hk : 2 ^ k < 2 ^ 6 := Nat.lt_of_mul_lt_mul_left hlt
  have hk6 : k + 1 ≤ 6 := by
    by_contra hcon
    have h6k : 2 ^ 6 ≤ 2 ^ k :=
      Nat.pow_le_pow_right (by norm_num) (by omega)
    omega
  have hle2 : 256 * 2 ^ (k + 1) ≤ 256 * 2 ^ 6 :=
    Nat.mul_le_mul_left 256 (Nat.pow_le_pow_right (by norm_num) hk6)
  have heq : 256 * 2 ^ k * GROWTH_FACTOR = 256 * 2 ^ (k + 1) := by
    show 256 * 2 ^ k * 2 = 256 * 2 ^ (k + 1)
    ring
  have heq2 : 2 * (256 * 2 ^ k) = 256 * 2 ^ (k + 1) := by ring
  constructor
  · rw [heq, hmax, heq2]
    exact Nat.min_eq_left hle2
  · refine ⟨k + 1, heq2, ?_⟩
    rw [heq2]
    calc 256 * 2 ^ (k + 1) ≤ 256 * 2 ^ 6 := hle2
    _ = 16384 := by norm_num

theorem applyOp_size {P : Type} (ops : PackerOps P) (st st2 : InnerAtlas P)
    (op : AtlasOp) (h : applyOp ops st op = some st2) (hinv : SizeInv st.size) :
    SizeInv st2.size ∧ st.size ≤ st2.size := by
  cases op with
  | tryAlloc width height =>
    simp only [applyOp, Option.some.injEq] at h
    subst h
    exact ⟨hinv, Nat.le_refl _⟩
  | trimOp =>
    simp only [applyOp, Option.some.injEq] at h
    subst h
    exact ⟨hinv, Nat.le_refl _⟩
  | growOp fontRaster customRaster scale_factor =>
    simp only [applyOp, Option.map_eq_some'] at h
    obtain ⟨⟨b, stG⟩, hg, hst⟩ := h
    subst hst
    rcases grow_cases ops fontRaster customRaster scale_factor st hg with
      ⟨_, _, hEq⟩ | ⟨hlt, _, _, _, _, hsz, _, _⟩
    · subst hEq
      exact ⟨hinv, Nat.le_refl _⟩
    · obtain ⟨hmin, hinv2⟩ := grow_size_double hinv hlt
      rw [hsz, hmin]
      exact ⟨hinv2, by omega⟩

theorem foldlM_applyOp_size {P : Type} (ops : PackerOps P) :
    ∀ (seq : List AtlasOp) (st st2 : InnerAtlas P),
      SizeInv st.size → seq.foldlM (applyOp ops) st = some st2 →
      SizeInv st2.size ∧ st.size ≤ st2.size := by
  intro seq
  induction seq with
  | nil =>
    intro st st2 h0 hrun
    simp only [List.foldlM_nil, Option.pure_def, Option.some.injEq] at hrun
    subst hrun
    exact ⟨h0, Nat.le_refl _⟩
  | cons op seq ih =>
    intro st st2 h0 hrun
    rw [List.foldlM_cons] at hrun
    cases hop : applyOp ops st op with
    | none =>
      rw [hop] at hrun
      cases hrun
    | some stM =>
      rw [hop] at hrun
      simp only [Option.bind_eq_bind, Option.some_bind] at hrun
      obtain ⟨h1, h2⟩ := applyOp_size ops st stM op hop h0
      obtain ⟨h3, h4⟩ := ih stM st2 h1 hrun
      exact ⟨h3, Nat.le_trans h2 h4⟩

/-- C10: under the size invariant (side length is 256·2^k, between the
fixed constants 256 and 16384), any sequence of plane operations keeps
the invariant and never shrinks the size; a fresh plane starts at 256;
and a successful `grow` exactly doubles the size. -/
theorem size_invariant_monotone {P : Type} (ops : PackerOps P) (seq : List AtlasOp)
    (st st2 : InnerAtlas P) (h0 : SizeInv st.size)
    (hrun : seq.foldlM (applyOp ops) st = some st2) :
    SizeInv st2.size ∧ st.size ≤ st2.size ∧ 256 ≤ st2.size ∧ st2.size ≤ 16384 ∧
    InnerAtlas.INITIAL_SIZE = 256 ∧ InnerAtlas.MAX_TEXTURE_DIMENSION_2D = 16384 ∧
    SizeInv InnerAtlas.INITIAL_SIZE ∧
    (∀ (stA stB : InnerAtlas P) fontRaster customRaster scale_factor,
      SizeInv stA.size →
      stA.grow ops fontRaster customRaster scale_factor = some (true, stB) →
      stB.size = 2 * stA.size) := by
  obtain ⟨h1, h2⟩ := foldlM_applyOp_size ops seq st st2 h0 hrun
  obtain ⟨h3, h4⟩ := SizeInv_bounds h1
  refine ⟨h1, h2, h3, h4, rfl, rfl, ⟨0, by norm_num [InnerAtlas.INITIAL_SIZE], by norm_num [InnerAtlas.INITIAL_SIZE]⟩, ?_⟩
  intro stA stB fontRaster customRaster scale_factor hinvA hg
  rcases grow_cases ops fontRaster customRaster scale_factor stA hg with
    ⟨_, hb, _⟩ | ⟨hlt, _, _, _, _, hsz, _, _⟩
  · cases hb
  · obtain ⟨hmin, _⟩ := grow_size_double hinvA hlt
    rw [hsz, hmin]

theorem size_invariant_monotone_witness :
    SizeInv exStSmall512.size ∧ exStSmall.size ≤ exStSmall512.size := by
  have h0 : SizeInv exStSmall.size := ⟨0, by norm_num [exStSmall, InnerAtlas.new, InnerAtlas.INITIAL_SIZE], by norm_num [exStSmall, InnerAtlas.new, InnerAtlas.INITIAL_SIZE]⟩
  have hrun : [AtlasOp.growOp exFontOk exCustomNone 0, AtlasOp.trimOp].foldlM
      (applyOp toyOps) exStSmall = some exStSmall512 := rfl
  have h := size_invariant_monotone toyOps
    [AtlasOp.growOp exFontOk exCustomNone 0, AtlasOp.trimOp] exStSmall exStSmall512
    h0 hrun
  exact ⟨h.1, h.2.1⟩

theorem foldlM_none_of_mem {α β : Type} (f : β → α → Option β) (l : List α) (e : α)
    (he : e ∈ l) (hf : ∀ b, f b e = none) : ∀ b, l.foldlM f b = none := by
  induction l with
  | nil => cases he
  | cons a l ih =>
    intro b
    rw [List.foldlM_cons]
    rw [List.mem_cons] at he
    rcases he with rfl | he
    · rw [hf b]
      rfl
    · cases hfa : f b a with
      | none => rfl
      | some b2 =>
        simp only [Option.bind_eq_bind, Option.some_bind]
        exact ih he b2

/-- C8: if the external custom-glyph rasterizer, re-invoked during the
re-upload pass of `grow` for an identity that previously rasterized
successfully (it sits in the cache with an in-atlas placement), returns
`none`, or returns a bitmap failing the dimension/content-kind sanity
check, then `grow` panics (models the `panic!` and the `validate`
assertion) instead of completing. -/
theorem grow_rasterizer_violation_fatal {P : Type} (ops : PackerOps P)
    (fontRaster : FontRaster) (customRaster : CustomRaster) (scale_factor : Nat)
    (st : InnerAtlas P) (cache_key : CustomGlyphCacheKey) (v : GlyphDetails)
    (x y : Nat)
    (hmem : (GlyphonCacheKey.custom cache_key, v) ∈ st.glyph_cache)
    (hplaced : v.gpu_cache = .inAtlas x y)
    (hmax : st.size < InnerAtlas.MAX_TEXTURE_DIMENSION_2D)
    (hbad : customRaster
        { id := cache_key.glyph_id, width := cache_key.width,
          height := cache_key.height, x_bin := cache_key.x_bin,
          y_bin := cache_key.y_bin, scale := scale_factor } = none ∨
      (∃ rg, customRaster
          { id := cache_key.glyph_id, width := cache_key.width,
            height := cache_key.height, x_bin := cache_key.x_bin,
            y_bin := cache_key.y_bin, scale := scale_factor } = some rg ∧
        rg.validate
          { id := cache_key.glyph_id, width := cache_key.width,
            height := cache_key.height, x_bin := cache_key.x_bin,
            y_bin := cache_key.y_bin, scale := scale_factor }
          (some st.kind.as_content_type) = false)) :
    st.grow ops fontRaster customRaster scale_factor = none := by
  have hstep : ∀ tex, reuploadGlyph st.kind fontRaster customRaster scale_factor tex
      (GlyphonCacheKey.custom cache_key, v) = none := by
    intro tex
    rw [reuploadGlyph_as_command]
    have hcmd : reuploadCommand st.kind fontRaster customRaster scale_factor
        (GlyphonCacheKey.custom cache_key, v) = none := by
      simp only [reuploadCommand, hplaced]
      rcases hbad with hnone | ⟨rg, hsome, hval⟩
      · rw [hnone]
      · simp only [hsome]
        rw [if_neg (by rw [hval]; exact fun hcon => Bool.noConfusion hcon)]
    rw [hcmd]
  simp only [InnerAtlas.grow]
  rw [if_neg (Nat.not_le_of_lt hmax)]
  rw [foldlM_none_of_mem _ _ _ hmem hstep]

theorem grow_rasterizer_violation_fatal_witness :
    exSt8.grow toyOps exFontOk exCustomNone 0 = none :=
  grow_rasterizer_violation_fatal toyOps exFontOk exCustomNone 0 exSt8
    { glyph_id := 9, width := 8, height := 8, x_bin := 0, y_bin := 0 } exDetC 16 16
    (by decide) (by decide) (by decide) (Or.inl rfl)

theorem reuploadCommand_inAtlas_shape (kind : Kind) (fontRaster : FontRaster)
    (customRaster : CustomRaster) (scale_factor : Nat)
    (k : GlyphonCacheKey) (v : GlyphDetails) (x y : Nat)
    (hgc : v.gpu_cache = .inAtlas x y)
    (hne : reuploadCommand kind fontRaster customRaster scale_factor (k, v) ≠ none) :
    ∃ u, reuploadCommand kind fontRaster customRaster scale_factor (k, v) =
      some (some u) ∧ u.x = x ∧ u.y = y := by
  revert hne
  cases k with
  | text cache_key =>
    simp only [reuploadCommand, hgc]
    cases hfr : fontRaster cache_key
    · intro hne
      exact absurd rfl hne
    · intro _
      exact ⟨_, rfl, rfl, rfl⟩
  | custom cache_key =>
    simp only [reuploadCommand, hgc]
    cases hcr : customRaster
        { id := cache_key.glyph_id, width := cache_key.width,
          height := cache_key.height, x_bin := cache_key.x_bin,
          y_bin := cache_key.y_bin, scale := scale_factor }
    · intro hne
      exact absurd rfl hne
    · rename_i rg
      by_cases hv : rg.validate
          { id := cache_key.glyph_id, width := cache_key.width,
            height := cache_key.height, x_bin := cache_key.x_bin,
            y_bin := cache_key.y_bin, scale := scale_factor }
          (some kind.as_content_type) = true
      · simp only [hv, if_true]
        intro _
        exact ⟨_, rfl, rfl, rfl⟩
      · have hv2 : rg.validate
            { id := cache_key.glyph_id, width := cache_key.width,
              height := cache_key.height, x_bin := cache_key.x_bin,
              y_bin := cache_key.y_bin, scale := scale_factor }
            (some kind.as_content_type) = false := by
          simpa using hv
        simp only [hv2, Bool.false_eq_true, if_false]
        intro hne
        exact absurd rfl hne

/-- C3: a successful `grow` leaves the recency cache (contents and
order) and the in-use set untouched; the new texture's uploads are
exactly the re-upload commands of the cache entries; every entry placed
in the atlas is re-uploaded at its original stored coordinates with the
freshly rasterized bitmap; entries with `SkipRasterization` contribute no
upload. -/
theorem grow_preserves_placements {P : Type} (ops : PackerOps P)
    (fontRaster : FontRaster) (customRaster : CustomRaster) (scale_factor : Nat)
    (st : InnerAtlas P) {st2 : InnerAtlas P}
    (hgrow : st.grow ops fontRaster customRaster scale_factor = some (true, st2)) :
    st2.glyph_cache = st.glyph_cache ∧
    st2.glyphs_in_use = st.glyphs_in_use ∧
    st2.texture.uploads = st.glyph_cache.filterMap
      (fun e => (reuploadCommand st.kind fontRaster customRaster scale_factor e).join) ∧
    (∀ k v x y, (k, v) ∈ st.glyph_cache → v.gpu_cache = .inAtlas x y →
      ∃ u, (reuploadCommand st.kind fontRaster customRaster scale_factor (k, v)).join =
          some u ∧
        u ∈ st2.texture.uploads ∧ u.x = x ∧ u.y = y) ∧
    (∀ e : GlyphonCacheKey × GlyphDetails,
      e.2.gpu_cache = GpuCacheStatus.skipRasterization →
      (reuploadCommand st.kind fontRaster customRaster scale_factor e).join = none) := by
  rcases grow_cases ops fontRaster customRaster scale_factor st hgrow with
    ⟨_, hb, _⟩ | ⟨_, _, _, hcache, hinuse, _, _, hfold⟩
  · cases hb
  · obtain ⟨_, hupl, hnopanic⟩ :=
      foldlM_reupload_spec st.kind fontRaster customRaster scale_factor
        st.glyph_cache _ _ hfold
    rw [List.nil_append] at hupl
    refine ⟨hcache, hinuse, hupl, ?_, ?_⟩
    · intro k v x y hm hgc
      obtain ⟨u, hcmd, hux, huy⟩ :=
        reuploadCommand_inAtlas_shape st.kind fontRaster customRaster scale_factor
          k v x y hgc (hnopanic (k, v) hm)
      refine ⟨u, by rw [hcmd]; rfl, ?_, hux, huy⟩
      rw [hupl]
      exact List.mem_filterMap.mpr ⟨(k, v), hm, by rw [hcmd]; rfl⟩
    · intro e hskip
      obtain ⟨k, v⟩ := e
      simp only at hskip
      simp only [reuploadCommand, hskip]
      rfl

theorem grow_preserves_placements_witness :
    exSt1.grow toyOps exFontOk exCustomNone 0 = some (true, exSt1Grown) ∧
    exSt1Grown.glyph_cache = exSt1.glyph_cache ∧
    exSt1Grown.glyphs_in_use = exSt1.glyphs_in_use := by
  have hg : exSt1.grow toyOps exFontOk exCustomNone 0 = some (true, exSt1Grown) := rfl
  have h := grow_preserves_placements toyOps exFontOk exCustomNone 0 exSt1 hg
  exact ⟨hg, h.1, h.2.1⟩

/-- C1: an identity in the in-use set is never removed from the recency
cache by `try_allocate`, its allocator region is never deallocated
(assuming the allocator contract, pairwise-distinct region ids and live
ownership), and every entry `try_allocate` does remove was not in use —
so a request that could only be satisfied by evicting an in-use entry
fails (returns `none`) instead of evicting it. -/
theorem try_allocate_eviction_safety {P : Type} {ops : PackerOps P}
    (hc : PackerContract ops) (st : InnerAtlas P) (width height : Nat)
    (hids : (st.glyph_cache.filterMap fun e => e.2.atlas_id).Nodup)
    (hlive : ∀ e ∈ st.glyph_cache, ∀ i, e.2.atlas_id = some i →
      (ops.regions st.packer i).isSome = true) :
    (∀ k v, k ∈ st.glyphs_in_use → (k, v) ∈ st.glyph_cache →
      (k, v) ∈ (st.try_allocate ops width height).2.glyph_cache) ∧
    (∀ k v i, k ∈ st.glyphs_in_use → (k, v) ∈ st.glyph_cache →
      v.atlas_id = some i →
      ops.regions (st.try_allocate ops width height).2.packer i =
        ops.regions st.packer i) ∧
    (∀ e ∈ st.glyph_cache, e ∉ (st.try_allocate ops width height).2.glyph_cache →
      e.1 ∉ st.glyphs_in_use) := by
  obtain ⟨n, hn, htake, hres⟩ :=
    tryAllocateGo_spec ops (fun k => decide (k ∈ st.glyphs_in_use)) width height
      st.glyph_cache.length st.glyph_cache st.packer (Nat.le_refl _)
  have hsplitIds : st.glyph_cache.filterMap (fun e => e.2.atlas_id) =
      (st.glyph_cache.take n).filterMap (fun e => e.2.atlas_id) ++
        (st.glyph_cache.drop n).filterMap (fun e => e.2.atlas_id) := by
    rw [← List.filterMap_append, List.take_append_drop]
  have hnodup2 : ((st.glyph_cache.take n).filterMap (fun e => e.2.atlas_id) ++
      (st.glyph_cache.drop n).filterMap (fun e => e.2.atlas_id)).Nodup := by
    rw [← hsplitIds]
    exact hids
  rw [List.nodup_append] at hnodup2
  obtain ⟨_, _, hdisjId⟩ := hnodup2
  have hnotTake : ∀ k v, k ∈ st.glyphs_in_use → (k, v) ∈ st.glyph_cache →
      (k, v) ∈ st.glyph_cache.drop n := by
    intro k v hk hm
    have hm2 : (k, v) ∈ st.glyph_cache.take n ++ st.glyph_cache.drop n := by
      rw [List.take_append_drop]
      exact hm
    rw [List.mem_append] at hm2
    rcases hm2 with hmem | hmem
    · have hdec := htake (k, v) hmem
      rw [decide_eq_false_iff_not] at hdec
      exact absurd hk hdec
    · exact hmem
  have hfin : (st.try_allocate ops width height).2.glyph_cache =
      st.glyph_cache.drop n := by
    rcases hres with ⟨a, p2, hal, heq⟩ | ⟨hal, heq, _⟩ <;>
      (unfold InnerAtlas.try_allocate; rw [heq])
  have hregion_pres : ∀ i,
      i ∈ (st.glyph_cache.drop n).filterMap (fun e => e.2.atlas_id) →
      (ops.regions st.packer i).isSome = true →
      ops.regions (st.try_allocate ops width height).2.packer i =
        ops.regions st.packer i := by
    intro i hidrop hlive_i
    have hinot : i ∉ (st.glyph_cache.take n).filterMap (fun e => e.2.atlas_id) :=
      fun hcon => (hdisjId hcon) hidrop
    have hpf : ops.regions (deallocAll ops st.packer (st.glyph_cache.take n)) i =
        ops.regions st.packer i := by
      have hfold := foldl_deallocate_regions hc
        ((st.glyph_cache.take n).filterMap fun e => e.2.atlas_id) st.packer i
      rw [if_neg hinot] at hfold
      exact hfold
    rcases hres with ⟨a, p2, hal, heq⟩ | ⟨hal, heq, _⟩
    · have hta : (st.try_allocate ops width height).2.packer = p2 := by
        unfold InnerAtlas.try_allocate
        rw [heq]
      rw [hta]
      obtain ⟨hfresh, _, _, _, _, hupd, _⟩ := hc.allocate_spec _ width height a p2 hal
      rw [hupd i]
      have hne : i ≠ a.id := by
        intro hcon
        subst hcon
        rw [hfresh] at hpf
        rw [← hpf] at hlive_i
        simp at hlive_i
      rw [if_neg hne]
      exact hpf
    · have hta : (st.try_allocate ops width height).2.packer =
          deallocAll ops st.packer (st.glyph_cache.take n) := by
        unfold InnerAtlas.try_allocate
        rw [heq]
      rw [hta]
      exact hpf
  refine ⟨?_, ?_, ?_⟩
  · intro k v hk hm
    rw [hfin]
    exact hnotTake k v hk hm
  · intro k v i hk hm hid
    exact hregion_pres i
      (List.mem_filterMap.mpr ⟨(k, v), hnotTake k v hk hm, hid⟩)
      (hlive (k, v) hm i hid)
  · intro e he hnot
    rw [hfin] at hnot
    have hm2 : e ∈ st.glyph_cache.take n ++ st.glyph_cache.drop n := by
      rw [List.take_append_drop]
      exact he
    rw [List.mem_append] at hm2
    rcases hm2 with hmem | hmem
    · have hdec := htake e hmem
      rw [decide_eq_false_iff_not] at hdec
      exact hdec
    · exact absurd hmem hnot

theorem try_allocate_eviction_safety_witness :
    (exKeyS, exDetS) ∈ (exSt1.try_allocate toyOps 64 64).2.glyph_cache ∧
    toyOps.regions (exSt1.try_allocate toyOps 64 64).2.packer 5 =
      toyOps.regions exSt1.packer 5 := by
  have hlive : ∀ e ∈ exSt1.glyph_cache, ∀ i, e.2.atlas_id = some i →
      (toyOps.regions exSt1.packer i).isSome = true := by
    intro e he i hid
    rw [show exSt1.glyph_cache = [(exKeyS, exDetS)] from rfl,
      List.mem_singleton] at he
    subst he
    have h5 : (5 : Nat) = i := Option.some.inj hid
    subst h5
    decide
  have h := try_allocate_eviction_safety toyContract exSt1 64 64 (by decide) hlive
  exact ⟨h.1 exKeyS exDetS (by decide) (by decide),
    h.2.1 exKeyS exDetS 5 (by decide) (by decide) rfl⟩

/-- C5: the eviction loop of `try_allocate` terminates after removing
some prefix of the finite recency cache (`drop n` below), and its result
is one of exactly three outcomes: a successful allocation, failure with
the scan stopped at an in-use entry, or failure with the recency cache
exhausted. -/
theorem try_allocate_terminates_trichotomy {P : Type} (ops : PackerOps P)
    (st : InnerAtlas P) (width height : Nat) :
    ∃ n, n ≤ st.glyph_cache.length ∧
      (st.try_allocate ops width height).2.glyph_cache = st.glyph_cache.drop n ∧
      ((∃ a, (st.try_allocate ops width height).1 = some a) ∨
        ((st.try_allocate ops width height).1 = none ∧
          ((st.try_allocate ops width height).2.glyph_cache = [] ∨
            ∃ k v rest,
              (st.try_allocate ops width height).2.glyph_cache = (k, v) :: rest ∧
              k ∈ st.glyphs_in_use))) := by
  obtain ⟨n, hn, _, hres⟩ :=
    tryAllocateGo_spec ops (fun k => decide (k ∈ st.glyphs_in_use)) width height
      st.glyph_cache.length st.glyph_cache st.packer (Nat.le_refl _)
  have hfin : (st.try_allocate ops width height).2.glyph_cache =
      st.glyph_cache.drop n := by
    rcases hres with ⟨a, p2, hal, heq⟩ | ⟨hal, heq, _⟩ <;>
      (unfold InnerAtlas.try_allocate; rw [heq])
  refine ⟨n, hn, hfin, ?_⟩
  rcases hres with ⟨a, p2, hal, heq⟩ | ⟨hal, heq, htri⟩
  · refine Or.inl ⟨a, ?_⟩
    unfold InnerAtlas.try_allocate
    rw [heq]
  · refine Or.inr ⟨?_, ?_⟩
    · unfold InnerAtlas.try_allocate
      rw [heq]
    · rw [hfin]
      rcases htri with hnil | ⟨k, v, rest, hcons, hk⟩
      · exact Or.inl hnil
      · refine Or.inr ⟨k, v, rest, hcons, ?_⟩
        rw [decide_eq_true_eq] at hk
        exact hk

/-- C6, counterexample to the claim as stated: in `exSt6` the
least-recently-used entry is a zero-area (`atlas_id = none`) entry that
is in use; `try_allocate` fails (returns `none`) with the cache unchanged
— the failure is caused by a zero-area in-use entry, not by a sized
in-use entry or an empty cache.  Had the scan skipped it as the claim
says, the sized non-in-use entry behind it would have been evicted and
the allocation would have succeeded, as `exSt6b` (the same plane without
the zero-area entry) shows. -/
theorem zero_area_scan_counterexample :
    (exSt6.try_allocate toyOps 32 32).1 = none ∧
    (exSt6.try_allocate toyOps 32 32).2.glyph_cache =
      [(exKeyZ, exDetZ), (exKeyS, exDetS)] ∧
    exDetZ.atlas_id = none ∧
    exKeyZ ∈ exSt6.glyphs_in_use ∧
    (exSt6b.try_allocate toyOps 32 32).1 =
      some { id := 0, rect := { x := 0, y := 0, w := 32, h := 32 } } := by
  have h1 : toyOps.allocate exSt6.packer 32 32 = none := rfl
  have h2 : scanLru (fun k => decide (k ∈ exSt6.glyphs_in_use)) exSt6.glyph_cache =
      .blocked exSt6.glyph_cache := rfl
  have hgo := tryAllocateGo_scan_blocked h1 h2
  have hta1 : (exSt6.try_allocate toyOps 32 32).1 = none := by
    simp only [InnerAtlas.try_allocate, hgo]
  have hta2 : (exSt6.try_allocate toyOps 32 32).2.glyph_cache =
      [(exKeyZ, exDetZ), (exKeyS, exDetS)] := by
    simp only [InnerAtlas.try_allocate, hgo]
    rfl
  have h1b : toyOps.allocate exSt6b.packer 32 32 = none := rfl
  have h2b : scanLru (fun k => decide (k ∈ exSt6b.glyphs_in_use))
      exSt6b.glyph_cache = .found exKeyS exDetS 5 [] := rfl
  have hkb : (fun k => decide (k ∈ exSt6b.glyphs_in_use)) exKeyS = false := by decide
  have hev := tryAllocateGo_found_evict h1b h2b hkb
  have h3b : toyOps.allocate (toyOps.deallocate exSt6b.packer 5) 32 32 =
      some ({ id := 0, rect := { x := 0, y := 0, w := 32, h := 32 } },
        (256, [(0, { x := 0, y := 0, w := 32, h := 32 })])) := by decide
  have hgob := @tryAllocateGo_alloc_some ToyPacker toyOps
    (fun k => decide (k ∈ exSt6b.glyphs_in_use)) 32 32
    (toyOps.deallocate exSt6b.packer 5)
    { id := 0, rect := { x := 0, y := 0, w := 32, h := 32 } }
    (256, [(0, { x := 0, y := 0, w := 32, h := 32 })]) [] h3b
  have hta3 : (exSt6b.try_allocate toyOps 32 32).1 =
      some { id := 0, rect := { x := 0, y := 0, w := 32, h := 32 } } := by
    unfold InnerAtlas.try_allocate
    rw [hev, hgob]
  exact ⟨hta1, hta2, rfl, by decide, hta3⟩

/-- C6, amended: during the eviction scan a zero-area entry that is not
in use is popped and the next entry re-peeked; a zero-area entry that IS
in use halts the scan — `try_allocate` returns `none` with the cache
unchanged, exactly like a sized in-use entry — so allocation failure
arises exactly from an in-use entry (of any placement) at the scan front
or from an exhausted cache. -/
theorem zero_area_scan_amended {P : Type} (ops : PackerOps P)
    (st : InnerAtlas P) (width height : Nat) :
    (∀ k v (rest : List (GlyphonCacheKey × GlyphDetails)), v.atlas_id = none →
      k ∉ st.glyphs_in_use →
      scanLru (fun k2 => decide (k2 ∈ st.glyphs_in_use)) ((k, v) :: rest) =
        scanLru (fun k2 => decide (k2 ∈ st.glyphs_in_use)) rest) ∧
    (∀ k v rest, st.glyph_cache = (k, v) :: rest → v.atlas_id = none →
      k ∈ st.glyphs_in_use → ops.allocate st.packer width height = none →
      (st.try_allocate ops width height).1 = none ∧
      (st.try_allocate ops width height).2.glyph_cache = st.glyph_cache) ∧
    ((st.try_allocate ops width height).1 = none →
      (st.try_allocate ops width height).2.glyph_cache = [] ∨
      ∃ k v rest, (st.try_allocate ops width height).2.glyph_cache = (k, v) :: rest ∧
        k ∈ st.glyphs_in_use) := by
  refine ⟨?_, ?_, ?_⟩
  · intro k v rest hid hnot
    simp only [scanLru, hid]
    rw [if_neg (by simpa using hnot)]
  · intro k v rest hcache hid hk hal
    have hs : scanLru (fun k2 => decide (k2 ∈ st.glyphs_in_use)) st.glyph_cache =
        .blocked st.glyph_cache := by
      rw [hcache]
      simp only [scanLru, hid]
      rw [if_pos (by simpa using hk)]
    have hgo := tryAllocateGo_scan_blocked hal hs
    constructor <;> (unfold InnerAtlas.try_allocate; rw [hgo])
  · intro hnone
    obtain ⟨n, _, _, hres⟩ :=
      tryAllocateGo_spec ops (fun k => decide (k ∈ st.glyphs_in_use)) width height
        st.glyph_cache.length st.glyph_cache st.packer (Nat.le_refl _)
    rcases hres with ⟨a, p2, hal, heq⟩ | ⟨hal, heq, htri⟩
    · exfalso
      have : (st.try_allocate ops width height).1 = some a := by
        unfold InnerAtlas.try_allocate
        rw [heq]
      rw [hnone] at this
      cases this
    · have hfin : (st.try_allocate ops width height).2.glyph_cache =
          st.glyph_cache.drop n := by
        unfold InnerAtlas.try_allocate
        rw [heq]
      rw [hfin]
      rcases htri with hnil | ⟨k, v, rest, hcons, hk⟩
      · exact Or.inl hnil
      · refine Or.inr ⟨k, v, rest, hcons, ?_⟩
        rw [decide_eq_true_eq] at hk
        exact hk

theorem zero_area_scan_amended_witness :
    (exSt6.try_allocate toyOps 32 32).1 = none ∧
    (exSt6.try_allocate toyOps 32 32).2.glyph_cache = exSt6.glyph_cache :=
  (zero_area_scan_amended toyOps exSt6 32 32).2.1 exKeyZ exDetZ
    [(exKeyS, exDetS)] rfl rfl (by decide) rfl

theorem exSt1_regions_shape :
    ∀ i r, toyOps.regions exSt1.packer i = some r → i = 5 ∧ r = rect32 := by
  intro i r h
  by_cases h5 : (5 : Nat) = i
  · subst h5
    have h2 : (some rect32 : Option Rect) = some r := h
    exact ⟨rfl, (Option.some.inj h2).symm⟩
  · exfalso
    have hnone : toyOps.regions exSt1.packer i = none := by
      simp only [toyOps, toyRegions]
      rw [show exSt1.packer.2 = [(5, rect32)] from rfl]
      rw [List.find?_cons]
      rw [show (decide ((5 : Nat) = i)) = false by simpa using h5]
      rfl
    rw [hnone] at h
    cases h

theorem exSt1_inv : PlaneInv toyOps exSt1 := by
  constructor
  · decide
  · intro e he i hid
    rw [show exSt1.glyph_cache = [(exKeyS, exDetS)] from rfl,
      List.mem_singleton] at he
    subst he
    have h5 : (5 : Nat) = i := Option.some.inj hid
    subst h5
    exact ⟨rect32, rfl, rfl, rfl⟩
  · intro i j ri rj hne hri hrj
    obtain ⟨hi5, _⟩ := exSt1_regions_shape i ri hri
    obtain ⟨hj5, _⟩ := exSt1_regions_shape j rj hrj
    exact absurd (hi5.trans hj5.symm) hne
  · intro i r hr
    obtain ⟨_, hr32⟩ := exSt1_regions_shape i r hr
    subst hr32
    exact ⟨by decide, by decide⟩
  · rfl

/-- C2: assuming the `SpatialAllocator` contract, every plane operation
(`try_allocate` for any request, any non-panicking `grow`, and `trim`)
preserves the plane invariant: distinct region ownership of matching
size, no two live regions overlapping, all live regions inside the
side_length × side_length square. -/
theorem plane_invariant_preserved {P : Type} {ops : PackerOps P}
    (hc : PackerContract ops) (st : InnerAtlas P) (hinv : PlaneInv ops st) :
    (∀ width height, PlaneInv ops (st.try_allocate ops width height).2) ∧
    (∀ fontRaster customRaster scale_factor b st2,
      st.grow ops fontRaster customRaster scale_factor = some (b, st2) →
      PlaneInv ops st2) ∧
    PlaneInv ops st.trim :=
  ⟨fun width height => try_allocate_preserves_inv hc st hinv width height,
   fun fontRaster customRaster scale_factor _ _ hg =>
     grow_preserves_inv hc st hinv fontRaster customRaster scale_factor hg,
   trim_preserves_inv st hinv⟩

theorem plane_invariant_preserved_witness :
    PlaneInv toyOps (exSt1.try_allocate toyOps 64 64).2 ∧
    PlaneInv toyOps exSt1.trim :=
  ⟨(plane_invariant_preserved toyContract exSt1 exSt1_inv).1 64 64,
   (plane_invariant_preserved toyContract exSt1 exSt1_inv).2.2⟩
